import Mathlib

/-!
Verification development for the Movie-Encyclopedia repository.

The repository contains two near-identical Python files, `movieproject.py`
and `movies2.py`, each defining a `MovieEncyclopedia` data-access facade over
two storage backends (MongoDB, selected by `db_choice = "mongodb"`, and
DynamoDB, selected by `db_choice = "dynamodb"`) plus a Tkinter GUI.

We give a shallow embedding of the facade and of the GUI `add_movie` handler.
Python dictionaries become association lists over a small value type `PyVal`;
the two backend stores become two lists of such dictionaries; a backend call
that may raise is modelled by a boolean `raises` parameter, and an operation
whose exception escapes to the caller returns `Except.error ()`.

Numeric values (Python `float` and `decimal.Decimal`) are both carried as
rationals, tagged by their Python type, since the claims under study concern
which conversions happen and not floating-point rounding.

Functions in namespace `MP` embed `movieproject.py`; functions in namespace
`M2` embed `movies2.py`.
-/

namespace MovieEnc

/-- Python values stored in a movie record: a `float`, a `decimal.Decimal`,
an `int`, a string, or a list of strings. -/
inductive PyVal where
  | pfloat (q : ℚ)
  | pdec (q : ℚ)
  | pint (n : ℤ)
  | pstr (s : String)
  | plist (l : List String)
  deriving Repr, DecidableEq

/-- A Python dict with string keys, as an association list. -/
abbrev Dict := List (String × PyVal)

/-- `d[k]` lookup: first entry with key `k`. -/
def dictGet (d : Dict) (k : String) : Option PyVal :=
  match d with
  | [] => none
  | p :: t => if p.1 == k then some p.2 else dictGet t k

/-- `k in d`. -/
def hasKey (d : Dict) (k : String) : Bool :=
  d.any (fun p => p.1 == k)

/-- `d[k] = v` assignment: replaces the (unique, since these lists model
Python dicts) entry with key `k` in place, otherwise appends a new entry
(Python dict insertion order). -/
def dictSet (d : Dict) (k : String) (v : PyVal) : Dict :=
  match d with
  | [] => [(k, v)]
  | p :: t => if p.1 == k then (k, v) :: t else p :: dictSet t k v

/-- `needle` occurs as a contiguous sublist of the second argument. -/
def listHasSub (needle : List Char) : List Char → Bool
  | [] => needle.isEmpty
  | c :: t => needle.isPrefixOf (c :: t) || listHasSub needle t

/-- Case-sensitive substring test (DynamoDB `contains` on a string). -/
def csContains (hay needle : String) : Bool :=
  listHasSub needle.toList hay.toList

/-- Case-insensitive substring test: a MongoDB `$regex` pattern with option
`i`, with the search value taken as a literal pattern (metacharacters are not
modelled). -/
def ciContains (hay needle : String) : Bool :=
  listHasSub (needle.toList.map Char.toLower) (hay.toList.map Char.toLower)

/-- Numeric value of a run of decimal digit characters. -/
def digitsVal (cs : List Char) : ℕ :=
  cs.foldl (fun n c => n * 10 + (c.toNat - 48)) 0

/-- Parse of a plain decimal numeral, as accepted by Python `Decimal(str)`
and `float(str)`: optional sign, digits with an optional fractional part
(at least one digit overall), optional exponent. Special values
(`NaN`, `Infinity`), surrounding whitespace and digit-group underscores are
not modelled. Returns `none` exactly when the constructor would raise. -/
def parseDec (s : String) : Option ℚ :=
  let cs := s.toList
  let sc : ℚ × List Char :=
    match cs with
    | '+' :: t => (1, t)
    | '-' :: t => (-1, t)
    | _ => (1, cs)
  let ip := sc.2.takeWhile Char.isDigit
  let r1 := sc.2.dropWhile Char.isDigit
  let fr : List Char × List Char :=
    match r1 with
    | '.' :: t => (t.takeWhile Char.isDigit, t.dropWhile Char.isDigit)
    | _ => ([], r1)
  if ip.isEmpty && fr.1.isEmpty then none
  else
    let mant : ℚ := sc.1 * ((digitsVal ip : ℚ) + (digitsVal fr.1 : ℚ) / (10 : ℚ) ^ fr.1.length)
    match fr.2 with
    | [] => some mant
    | 'e' :: t | 'E' :: t =>
      let esc : ℤ × List Char :=
        match t with
        | '+' :: u => (1, u)
        | '-' :: u => (-1, u)
        | _ => (1, t)
      let ed := esc.2.takeWhile Char.isDigit
      let r3 := esc.2.dropWhile Char.isDigit
      if ed.isEmpty || !r3.isEmpty then none
      else some (mant * (10 : ℚ) ^ (esc.1 * (digitsVal ed : ℤ)))
    | _ => none

/-- Python `float(x)` on the value kinds that can appear in a `rating` field.
`float` of a list raises `TypeError`; that case cannot occur on the inputs the
claims quantify over and is given a junk value. -/
def pyFloatOf : PyVal → ℚ
  | .pfloat q => q
  | .pdec q => q
  | .pint n => n
  | .pstr s => (parseDec s).getD 0
  | .plist _ => 0

/-- The two backend stores: the MongoDB `movies` collection (a sequence of
documents) and the DynamoDB `Movies` table (items keyed by `name`). -/
structure DBState where
  mongo : List Dict
  dynamo : List Dict
  deriving Repr, DecidableEq

/-- The record's `name` attribute equals the string `n` exactly. -/
def nameIs (n : String) (d : Dict) : Bool :=
  dictGet d "name" == some (.pstr n)

/-- MongoDB `find_one({"name": {"$regex": movie_name, "$options": "i"}})`
match predicate: the stored name contains the argument case-insensitively. -/
def ciNameMatch (n : String) (d : Dict) : Bool :=
  match dictGet d "name" with
  | some (.pstr s) => ciContains s n
  | _ => false

/-- DynamoDB `put_item`: overwrites the item with the same partition key
`name`, otherwise stores a new item. -/
def dynamoPut (tbl : List Dict) (item : Dict) : List Dict :=
  if tbl.any (fun d => dictGet d "name" == dictGet item "name")
  then tbl.map (fun d => if dictGet d "name" == dictGet item "name" then item else d)
  else tbl ++ [item]

/-- MongoDB `$set`: assign each key of `ud` in the document `d`. -/
def applySet (d : Dict) (ud : Dict) : Dict :=
  ud.foldl (fun acc p => dictSet acc p.1 p.2) d

/-- MongoDB `update_one({'name': movie_name}, {'$set': ud}})`: applies the
update to the first document whose name matches exactly. -/
def mongoUpdateOne (coll : List Dict) (n : String) (ud : Dict) : List Dict :=
  match coll with
  | [] => []
  | d :: t => if nameIs n d then applySet d ud :: t else d :: mongoUpdateOne t n ud

/-- MongoDB `delete_one({'name': movie_name})`: removes the first document
whose name matches exactly. -/
def mongoDeleteOne (coll : List Dict) (n : String) : List Dict :=
  match coll with
  | [] => []
  | d :: t => if nameIs n d then t else d :: mongoDeleteOne t n

/-- DynamoDB `update_item` with a `set` update expression: updates the item
with partition key `n` if present, otherwise creates it (upsert). -/
def dynamoUpdate (tbl : List Dict) (n : String) (ud : Dict) : List Dict :=
  if tbl.any (nameIs n)
  then tbl.map (fun d => if nameIs n d then applySet d ud else d)
  else tbl ++ [applySet [("name", .pstr n)] ud]

/-- DynamoDB `delete_item(Key={'name': n})`: unconditional removal of the
item with that key (no existence check). -/
def dynamoDelete (tbl : List Dict) (n : String) : List Dict :=
  tbl.filter (fun d => !(nameIs n d))

/-- `movieproject.py` MongoDB search filter
`{key: {'$regex': value, '$options': 'i'}}`: on a string field, a
case-insensitive substring match; on an array field, some element matches. -/
def mpRegexMatch (key value : String) (d : Dict) : Bool :=
  match dictGet d key with
  | some (.pstr s) => ciContains s value
  | some (.plist l) => l.any (fun s => ciContains s value)
  | _ => false

/-- DynamoDB filter expression `contains(key, :val)`: on a string attribute,
a case-sensitive substring test; on a list attribute, exact membership of the
value as an element. -/
def dynContainsMatch (key value : String) (d : Dict) : Bool :=
  match dictGet d key with
  | some (.pstr s) => csContains s value
  | some (.plist l) => l.contains value
  | _ => false

/-- `movies2.py` MongoDB search filter `{key: value}`: exact equality on a
string field; on an array field, exact membership of the value. -/
def m2EqMatch (key value : String) (d : Dict) : Bool :=
  match dictGet d key with
  | some (.pstr s) => s == value
  | some (.plist l) => l.contains value
  | _ => false

/-- Sort key `float(x['rating'])` used for ordering results. -/
def ratingKey (d : Dict) : ℚ :=
  pyFloatOf ((dictGet d "rating").getD (.pfloat 0))

/-- Rating-descending order used for result lists. Python `sorted(...,
reverse=True)` and the MongoDB `rating: -1` sort are stable sorts for this
total preorder, so they are embedded as a stable insertion sort below. -/
def ratingDesc (a b : Dict) : Prop :=
  ratingKey b ≤ ratingKey a

instance : DecidableRel ratingDesc :=
  fun a b => inferInstanceAs (Decidable (ratingKey b ≤ ratingKey a))

instance : IsTotal Dict ratingDesc :=
  ⟨fun a b => le_total (ratingKey b) (ratingKey a)⟩

instance : IsTrans Dict ratingDesc :=
  ⟨fun _ _ _ h1 h2 => le_trans h2 h1⟩

instance {ε α : Type _} [DecidableEq ε] [DecidableEq α] : DecidableEq (Except ε α) :=
  fun x y =>
    match x, y with
    | .error e, .error f =>
      if h : e = f then isTrue (by rw [h]) else isFalse (fun c => h (Except.error.inj c))
    | .ok a, .ok b =>
      if h : a = b then isTrue (by rw [h]) else isFalse (fun c => h (Except.ok.inj c))
    | .error _, .ok _ => isFalse (fun c => Except.noConfusion c)
    | .ok _, .error _ => isFalse (fun c => Except.noConfusion c)

/-- The float-for-MongoDB conversion applied to update values
(`float(value) if isinstance(value, Decimal)`). -/
def mongoConv : PyVal → PyVal
  | .pdec q => .pfloat q
  | v => v

/-- The Decimal-for-DynamoDB conversion applied to update values
(`Decimal(str(value)) if isinstance(value, float)`). -/
def dynamoConv : PyVal → PyVal
  | .pfloat q => .pdec q
  | v => v

/-- One raw row of the bulk-load CSV. `year` is parsed by pandas as an
integer; `rating`, whose Python float repr is not modelled, is kept as the
raw cell text; `genre`, `casts` and `directors` are the raw comma-delimited
cell texts before splitting. -/
structure Row where
  name : String
  year : ℤ
  rating : String
  certificate : String
  genre : String
  casts : String
  directors : String
  deriving Repr, DecidableEq

/-- The document inserted by the MongoDB branch of `load_movies_from_csv`:
the three delimited columns have been split on `','`. -/
def rowToMongoDoc (r : Row) : Dict :=
  [("name", .pstr r.name), ("year", .pint r.year),
   ("rating", .pfloat ((parseDec r.rating).getD 0)),
   ("certificate", .pstr r.certificate),
   ("genre", .plist (r.genre.splitOn ",")),
   ("casts", .plist (r.casts.splitOn ",")),
   ("directors", .plist (r.directors.splitOn ","))]

/-- The item built by the (dead) DynamoDB branch of `load_movies_from_csv`:
`year` and `rating` stringified, plus the derived `primary_genre`. -/
def rowToDynamoItem (r : Row) : Dict :=
  let genre := r.genre.splitOn ","
  [("name", .pstr r.name), ("year", .pstr (toString r.year)),
   ("rating", .pstr r.rating),
   ("certificate", .pstr r.certificate),
   ("genre", .plist genre),
   ("primary_genre", .pstr ((genre.head?).getD "None")),
   ("casts", .plist (r.casts.splitOn ",")),
   ("directors", .plist (r.directors.splitOn ","))]

namespace MP

/-- `movieproject.py` / `movies2.py` `load_movies_from_csv` (identical in the
two files): the DynamoDB write is nested inside the `db_choice == 'mongodb'`
branch, exactly as in the source. `rows` are the parsed CSV rows. -/
def load_movies_from_csv (choice : String) (rows : List Row) (st : DBState) : DBState :=
  if choice = "mongodb" then
    let st1 : DBState := { st with mongo := rows.map rowToMongoDoc }
    if choice = "dynamodb" then
      { st1 with dynamo := rows.foldl (fun tbl r => dynamoPut tbl (rowToDynamoItem r)) st1.dynamo }
    else st1
  else st

/-- `movieproject.py` `add_movie`. `raises` models the backend write call
raising. The first component is the content of the caller's `movie_data`
dict after the call (the conversions mutate it in place, before the write);
the second is the outcome. -/
def add_movie (choice : String) (raises : Bool) (movie_data : Dict) (st : DBState) :
    Dict × Except Unit DBState :=
  if choice = "mongodb" then
    let md := if hasKey movie_data "rating"
              then dictSet movie_data "rating"
                     (.pfloat (pyFloatOf ((dictGet movie_data "rating").getD (.pfloat 0))))
              else movie_data
    (md, if raises then .error () else .ok { st with mongo := st.mongo ++ [md] })
  else if choice = "dynamodb" then
    let md := match dictGet movie_data "rating" with
              | some (.pdec q) => dictSet movie_data "rating" (.pdec q)
              | _ => movie_data
    (md, if raises then .error () else .ok { st with dynamo := dynamoPut st.dynamo md })
  else (movie_data, .ok st)

/-- `movieproject.py` / `movies2.py` `update_movie` (identical in the two
files). The first component is the caller's `update_data` dict after the
call. -/
def update_movie (choice : String) (raises : Bool) (movie_name : String)
    (update_data : Dict) (st : DBState) : Dict × Except Unit DBState :=
  if choice = "mongodb" then
    let ud := update_data.map (fun p => (p.1, mongoConv p.2))
    (ud, if raises then .error () else .ok { st with mongo := mongoUpdateOne st.mongo movie_name ud })
  else if choice = "dynamodb" then
    let ud := update_data.map (fun p => (p.1, dynamoConv p.2))
    (ud, if raises then .error () else .ok { st with dynamo := dynamoUpdate st.dynamo movie_name ud })
  else (update_data, .ok st)

/-- `movieproject.py` `delete_movie`: the MongoDB call is not wrapped in a
`try`; the DynamoDB call is, and a raised exception is caught and printed. -/
def delete_movie (choice : String) (raises : Bool) (movie_name : String) (st : DBState) :
    Except Unit DBState :=
  if choice = "mongodb" then
    if raises then .error () else .ok { st with mongo := mongoDeleteOne st.mongo movie_name }
  else if choice = "dynamodb" then
    if raises then .ok st else .ok { st with dynamo := dynamoDelete st.dynamo movie_name }
  else .ok st

/-- `movieproject.py` `find_movies`. MongoDB: regex-i filter, sort by rating
descending, limit 20, not wrapped in a `try`. DynamoDB: paginated scan (in
table order, with the `contains` filter applied server-side to each page),
then client-side sort and truncation, all inside a `try` whose handler
prints and falls through to `return results`: a raise mid-pagination, or at
the `sorted` call, returns the items accumulated so far, in table order,
unsorted and untruncated. `scanned` is the number of table items the scan
had covered when the exception hit (any value at least the table length
meaning the raise happened at or after the `sorted` call; the parameter is
irrelevant when `raises = false`). -/
def find_movies (choice : String) (raises : Bool) (scanned : ℕ)
    (key value : String) (st : DBState) : Except Unit (List Dict) :=
  if choice = "mongodb" then
    if raises then .error ()
    else .ok ((List.insertionSort ratingDesc (st.mongo.filter (mpRegexMatch key value))).take 20)
  else if choice = "dynamodb" then
    if raises then .ok ((st.dynamo.take scanned).filter (dynContainsMatch key value))
    else .ok ((List.insertionSort ratingDesc (st.dynamo.filter (dynContainsMatch key value))).take 20)
  else .ok []

/-- `movieproject.py` `get_movie_details`: MongoDB `find_one` with a
case-insensitive regex on `name` (first match in collection order); DynamoDB
`get_item` with the exact key, `None` when absent. -/
def get_movie_details (choice : String) (st : DBState) (movie_name : String) : Option Dict :=
  if choice = "mongodb" then st.mongo.find? (ciNameMatch movie_name)
  else if choice = "dynamodb" then st.dynamo.find? (nameIs movie_name)
  else none

end MP

namespace M2

/-- `movies2.py` `load_movies_from_csv`: identical to `movieproject.py`,
including the dead nested DynamoDB branch. -/
def load_movies_from_csv (choice : String) (rows : List Row) (st : DBState) : DBState :=
  if choice = "mongodb" then
    let st1 : DBState := { st with mongo := rows.map rowToMongoDoc }
    if choice = "dynamodb" then
      { st1 with dynamo := rows.foldl (fun tbl r => dynamoPut tbl (rowToDynamoItem r)) st1.dynamo }
    else st1
  else st

/-- `movies2.py` `add_movie`: the MongoDB branch converts
`movie_data['rating']` unconditionally (a missing key raises `KeyError`,
modelled as an error outcome); the DynamoDB branch writes the dict through
without any conversion. -/
def add_movie (choice : String) (raises : Bool) (movie_data : Dict) (st : DBState) :
    Dict × Except Unit DBState :=
  if choice = "mongodb" then
    match dictGet movie_data "rating" with
    | some v =>
      let md := dictSet movie_data "rating" (.pfloat (pyFloatOf v))
      (md, if raises then .error () else .ok { st with mongo := st.mongo ++ [md] })
    | none => (movie_data, .error ())
  else if choice = "dynamodb" then
    (movie_data, if raises then .error () else .ok { st with dynamo := dynamoPut st.dynamo movie_data })
  else (movie_data, .ok st)

/-- `movies2.py` `update_movie` (same code as `movieproject.py`). -/
def update_movie (choice : String) (raises : Bool) (movie_name : String)
    (update_data : Dict) (st : DBState) : Dict × Except Unit DBState :=
  if choice = "mongodb" then
    let ud := update_data.map (fun p => (p.1, mongoConv p.2))
    (ud, if raises then .error () else .ok { st with mongo := mongoUpdateOne st.mongo movie_name ud })
  else if choice = "dynamodb" then
    let ud := update_data.map (fun p => (p.1, dynamoConv p.2))
    (ud, if raises then .error () else .ok { st with dynamo := dynamoUpdate st.dynamo movie_name ud })
  else (update_data, .ok st)

/-- `movies2.py` `delete_movie`: same structure as `movieproject.py`
(MongoDB unguarded, DynamoDB guarded by `try`/`except`). -/
def delete_movie (choice : String) (raises : Bool) (movie_name : String) (st : DBState) :
    Except Unit DBState :=
  if choice = "mongodb" then
    if raises then .error () else .ok { st with mongo := mongoDeleteOne st.mongo movie_name }
  else if choice = "dynamodb" then
    if raises then .ok st else .ok { st with dynamo := dynamoDelete st.dynamo movie_name }
  else .ok st

/-- `movies2.py` `find_movies`. MongoDB: exact-equality filter
`{key: value}`, sort by rating descending, limit 20, no `try`. DynamoDB: a
single scan with a `contains` filter, client-side sort and truncation, and no
`try` either, so a backend exception propagates. -/
def find_movies (choice : String) (raises : Bool) (key value : String) (st : DBState) :
    Except Unit (List Dict) :=
  if choice = "mongodb" then
    if raises then .error ()
    else .ok ((List.insertionSort ratingDesc (st.mongo.filter (m2EqMatch key value))).take 20)
  else if choice = "dynamodb" then
    if raises then .error ()
    else .ok ((List.insertionSort ratingDesc (st.dynamo.filter (dynContainsMatch key value))).take 20)
  else .ok []

/-- `movies2.py` `get_movie_details`: same code as `movieproject.py`. -/
def get_movie_details (choice : String) (st : DBState) (movie_name : String) : Option Dict :=
  if choice = "mongodb" then st.mongo.find? (ciNameMatch movie_name)
  else if choice = "dynamodb" then st.dynamo.find? (nameIs movie_name)
  else none

end M2

/-- Observable outcome of the GUI `add_movie` handler: a blocking error
dialog (`messagebox.showerror`), an exception escaping the handler uncaught,
or a successful add. -/
inductive GuiOutcome where
  | errDialog (msg : String)
  | uncaughtExc
  | added (name : String)
  deriving Repr, DecidableEq

namespace MP

/-- `movieproject.py` `MovieEncyclopediaGUI.add_movie`, from the raw entry
texts. `Decimal(rating_str)` raises `decimal.InvalidOperation` on a
non-numeric string; the handler's `except ValueError` clause does not catch
`InvalidOperation` (it is an `ArithmeticError`), so that exception escapes
uncaught and no dialog is shown. Returns the outcome and resulting state. -/
def gui_add_movie (choice name genresStr directorsStr certificate ratingStr : String)
    (st : DBState) : GuiOutcome × DBState :=
  let genres := genresStr.splitOn ","
  let directors := directorsStr.splitOn ","
  if name = "" ∨ ratingStr = "" then
    (.errDialog "Movie name and rating are required.", st)
  else
    match parseDec ratingStr with
    | none => (.uncaughtExc, st)
    | some r =>
      let genres := (genres.map String.trim).filter (fun g => g ≠ "")
      if genres = [] then (.errDialog "At least one genre is required.", st)
      else
        let movie_data : Dict :=
          [("name", .pstr name), ("genre", .plist genres),
           ("directors", .plist directors), ("certificate", .pstr certificate),
           ("rating", .pdec r)]
        match (add_movie choice false movie_data st).2 with
        | .ok st1 => (.added name, st1)
        | .error _ => (.uncaughtExc, st)

end MP

namespace M2

/-- `movies2.py` `MovieEncyclopediaGUI.add_movie` (no director/certificate
entries); the same uncaught-`InvalidOperation` flaw as `movieproject.py`. -/
def gui_add_movie (choice name genresStr ratingStr : String)
    (st : DBState) : GuiOutcome × DBState :=
  let genres := genresStr.splitOn ","
  if name = "" ∨ ratingStr = "" then
    (.errDialog "Movie name and rating are required.", st)
  else
    match parseDec ratingStr with
    | none => (.uncaughtExc, st)
    | some r =>
      let genres := (genres.map String.trim).filter (fun g => g ≠ "")
      if genres = [] then (.errDialog "At least one genre is required.", st)
      else
        let movie_data : Dict :=
          [("name", .pstr name), ("genre", .plist genres), ("rating", .pdec r)]
        match (add_movie choice false movie_data st).2 with
        | .ok st1 => (.added name, st1)
        | .error _ => (.uncaughtExc, st)

end M2

/-! ### Basic lemmas about the embedding -/

theorem isPrefixOf_self (l : List Char) : l.isPrefixOf l = true := by
  induction l with
  | nil => rfl
  | cons c t ih => simp [List.isPrefixOf, ih]

theorem listHasSub_self (l : List Char) : listHasSub l l = true := by
  cases l with
  | nil => rfl
  | cons c t => simp [listHasSub, isPrefixOf_self]

theorem ciContains_self (s : String) : ciContains s s = true :=
  listHasSub_self _

theorem dictGet_dictSet_self (d : Dict) (k : String) (v : PyVal) :
    dictGet (dictSet d k v) k = some v := by
  induction d with
  | nil => simp [dictSet, dictGet]
  | cons p t ih =>
    by_cases hp : (p.1 == k) = true
    · simp [dictSet, dictGet, hp]
    · simp [dictSet, dictGet, hp, ih]

theorem dictGet_dictSet_ne (d : Dict) (k k' : String) (v : PyVal) (hne : k' ≠ k) :
    dictGet (dictSet d k v) k' = dictGet d k' := by
  have hkk : ¬ (k == k') = true := by simpa using fun e => hne e.symm
  induction d with
  | nil => simp [dictSet, dictGet, hkk]
  | cons p t ih =>
    by_cases hp : (p.1 == k) = true
    · have hpk : p.1 = k := by simpa using hp
      have hpke : ¬ (p.1 == k') = true := by simpa [hpk] using hkk
      simp [dictSet, dictGet, hp, hkk, hpke]
    · by_cases hq : (p.1 == k') = true
      · simp [dictSet, dictGet, hp, hq]
      · simp [dictSet, dictGet, hp, hq, ih]

theorem hasKey_of_dictGet (d : Dict) (k : String) (v : PyVal)
    (h : dictGet d k = some v) : hasKey d k = true := by
  induction d with
  | nil => simp [dictGet] at h
  | cons p t ih =>
    by_cases hp : (p.1 == k) = true
    · simp [hasKey, hp]
    · simp only [dictGet, hp, if_false] at h
      have := ih h
      simp only [hasKey, List.any_cons, Bool.or_eq_true]
      exact Or.inr (by simpa [hasKey] using this)

theorem dictGet_mapVals (d : Dict) (k : String) (f : PyVal → PyVal) :
    dictGet (d.map (fun p => (p.1, f p.2))) k = (dictGet d k).map f := by
  induction d with
  | nil => rfl
  | cons p t ih =>
    by_cases hp : (p.1 == k) = true
    · simp [dictGet, hp]
    · simpa [dictGet, hp] using ih

/-- The sorted-and-truncated result list of a search: at most 20 elements,
pairwise in rating-descending order. -/
theorem sortTake_spec (l : List Dict) :
    ((List.insertionSort ratingDesc l).take 20).length ≤ 20 ∧
      ((List.insertionSort ratingDesc l).take 20).Pairwise ratingDesc := by
  constructor
  · rw [List.length_take]; omega
  · exact (List.sorted_insertionSort ratingDesc l).sublist
      (List.take_sublist 20 (List.insertionSort ratingDesc l))

/-- Membership in a sorted-truncated search result: every member satisfies
the filter and comes from the store; conversely, when at most 20 records
satisfy the filter, every record satisfying it appears in the result. -/
theorem sortTake_mem (p : Dict → Bool) (l : List Dict) (d : Dict) :
    (d ∈ (List.insertionSort ratingDesc (l.filter p)).take 20 → d ∈ l ∧ p d = true) ∧
      ((l.filter p).length ≤ 20 → d ∈ l → p d = true →
        d ∈ (List.insertionSort ratingDesc (l.filter p)).take 20) := by
  constructor
  · intro hmem
    have h1 : d ∈ List.insertionSort ratingDesc (l.filter p) :=
      List.take_subset 20 _ hmem
    have h2 : d ∈ l.filter p := (List.mem_insertionSort ratingDesc).mp h1
    exact ⟨List.mem_of_mem_filter h2, List.of_mem_filter h2⟩
  · intro hlen hmem hpd
    have h2 : d ∈ l.filter p := List.mem_filter.mpr ⟨hmem, hpd⟩
    have h1 : d ∈ List.insertionSort ratingDesc (l.filter p) :=
      (List.mem_insertionSort ratingDesc).mpr h2
    have hlen2 : (List.insertionSort ratingDesc (l.filter p)).length ≤ 20 := by
      rwa [List.length_insertionSort]
    rwa [List.take_of_length_le hlen2]

/-- Exact name match implies the case-insensitive regex match. -/
theorem ciNameMatch_of_nameIs (n : String) (d : Dict)
    (h : nameIs n d = true) : ciNameMatch n d = true := by
  unfold nameIs at h
  have hget : dictGet d "name" = some (.pstr n) := by simpa using h
  simp [ciNameMatch, hget, ciContains_self]

/-- Updating the first exactly-named document commutes with the
case-insensitive first-match lookup, provided the first case-insensitive
match is the exactly-named document. -/
theorem find?_mongoUpdateOne (l : List Dict) (n : String) (v : PyVal) (d : Dict)
    (hfind : l.find? (ciNameMatch n) = some d)
    (hex : dictGet d "name" = some (.pstr n)) :
    (mongoUpdateOne l n [("rating", v)]).find? (ciNameMatch n) =
      some (dictSet d "rating" v) := by
  induction l with
  | nil => simp at hfind
  | cons x t ih =>
    by_cases hp : ciNameMatch n x = true
    · rw [List.find?_cons_of_pos _ hp] at hfind
      have hxd : x = d := by simpa using hfind
      subst hxd
      have hnm : nameIs n x = true := by simp [nameIs, hex]
      have happ : applySet x [("rating", v)] = dictSet x "rating" v := rfl
      have hget : dictGet (dictSet x "rating" v) "name" = some (.pstr n) := by
        rw [dictGet_dictSet_ne _ _ _ _ (by decide)]; exact hex
      have hcim : ciNameMatch n (dictSet x "rating" v) = true := by
        simp [ciNameMatch, hget, ciContains_self]
      simp [mongoUpdateOne, hnm, happ, List.find?_cons_of_pos _ hcim]
    · rw [List.find?_cons_of_neg _ hp] at hfind
      have hnm : nameIs n x = false := by
        by_contra hc
        exact hp (ciNameMatch_of_nameIs n x (by simpa using hc))
      have := ih hfind
      simp [mongoUpdateOne, hnm, List.find?_cons_of_neg _ hp, this]

/-- `delete_one` on a collection with no exact match leaves it unchanged. -/
theorem mongoDeleteOne_nomatch (l : List Dict) (n : String)
    (h : ∀ d ∈ l, nameIs n d = false) : mongoDeleteOne l n = l := by
  induction l with
  | nil => rfl
  | cons x t ih =>
    have hx : nameIs n x = false := h x (by simp)
    simp [mongoDeleteOne, hx, ih fun d hd => h d (by simp [hd])]

/-- `delete_one` removes at most one document. -/
theorem mongoDeleteOne_length (l : List Dict) (n : String) :
    l.length ≤ (mongoDeleteOne l n).length + 1 := by
  induction l with
  | nil => simp
  | cons x t ih =>
    by_cases hx : nameIs n x = true
    · simp [mongoDeleteOne, hx]
    · simp only [mongoDeleteOne, if_neg hx, List.length_cons]
      omega

/-- `delete_item` on a table with no item of that key leaves it unchanged. -/
theorem dynamoDelete_nomatch (l : List Dict) (n : String)
    (h : ∀ d ∈ l, nameIs n d = false) : dynamoDelete l n = l := by
  unfold dynamoDelete
  exact List.filter_eq_self.mpr fun d hd => by simp [h d hd]

/-- `find?` returns the head of the first satisfying suffix. -/
theorem find?_first {α : Type} (p : α → Bool) (l1 l2 : List α) (d : α)
    (h1 : ∀ e ∈ l1, p e = false) (hd : p d = true) :
    (l1 ++ d :: l2).find? p = some d := by
  induction l1 with
  | nil => simp [List.find?_cons_of_pos _ hd]
  | cons x t ih =>
    have hx : p x = false := h1 x (by simp)
    rw [List.cons_append, List.find?_cons_of_neg _ (by simp [hx])]
    exact ih fun e he => h1 e (by simp [he])

/-- Upserting the exactly-named item commutes with the exact-key lookup. -/
theorem find?_dynamoUpdate (tbl : List Dict) (n : String) (v : PyVal) (e : Dict)
    (hfind : tbl.find? (nameIs n) = some e) :
    (dynamoUpdate tbl n [("rating", v)]).find? (nameIs n) =
      some (dictSet e "rating" v) := by
  have hmem : e ∈ tbl := List.mem_of_find?_eq_some hfind
  have hpe : nameIs n e = true := List.find?_some hfind
  have hany : tbl.any (nameIs n) = true := List.any_eq_true.mpr ⟨e, hmem, hpe⟩
  unfold dynamoUpdate
  rw [if_pos hany]
  clear hany hmem hpe
  induction tbl with
  | nil => simp at hfind
  | cons x t ih =>
    by_cases hx : nameIs n x = true
    · rw [List.find?_cons_of_pos _ hx] at hfind
      have hxe : x = e := by simpa using hfind
      subst hxe
      have happ : applySet x [("rating", v)] = dictSet x "rating" v := rfl
      have hget : nameIs n (dictSet x "rating" v) = true := by
        unfold nameIs at hx ⊢
        rw [dictGet_dictSet_ne _ _ _ _ (by decide)]
        exact hx
      simp [List.map_cons, hx, happ, List.find?_cons_of_pos _ hget]
    · rw [List.find?_cons_of_neg _ hx] at hfind
      simp [List.map_cons, hx, List.find?_cons_of_neg _ hx, ih hfind]

/-- Any `movieproject.py` search result delivered without a raised backend
exception is empty or a truncated sorted list. -/
theorem find_shape_MP (choice key value : String) (scanned : ℕ) (st : DBState)
    (res : List Dict) (h : MP.find_movies choice false scanned key value st = .ok res) :
    res = [] ∨ ∃ l, res = (List.insertionSort ratingDesc l).take 20 := by
  unfold MP.find_movies at h
  split at h
  · split at h
    · simp_all
    · exact Or.inr ⟨_, (Except.ok.inj h).symm⟩
  · split at h
    · split at h
      · simp_all
      · exact Or.inr ⟨_, (Except.ok.inj h).symm⟩
    · exact Or.inl (Except.ok.inj h).symm

/-- Any successful `movies2.py` search result is empty or a truncated sorted
list. -/
theorem find_shape_M2 (choice key value : String) (raises : Bool) (st : DBState)
    (res : List Dict) (h : M2.find_movies choice raises key value st = .ok res) :
    res = [] ∨ ∃ l, res = (List.insertionSort ratingDesc l).take 20 := by
  unfold M2.find_movies at h
  split at h
  · split at h
    · simp at h
    · exact Or.inr ⟨_, (Except.ok.inj h).symm⟩
  · split at h
    · split at h
      · simp at h
      · exact Or.inr ⟨_, (Except.ok.inj h).symm⟩
    · exact Or.inl (Except.ok.inj h).symm

/-! ### Concrete fixtures for witnesses and counterexamples -/

/-- A concrete movie record (rating 8). -/
def mDune : Dict :=
  [("name", .pstr "Dune"), ("year", .pint 2021), ("certificate", .pstr "PG-13"),
   ("genre", .plist ["Sci-Fi"]), ("casts", .plist ["Timothee Chalamet"]),
   ("directors", .plist ["Denis Villeneuve"]), ("rating", .pfloat 8)]

/-- A concrete movie record (rating 9). -/
def mCasa : Dict :=
  [("name", .pstr "Casablanca"), ("certificate", .pstr "PG"),
   ("genre", .plist ["Drama"]), ("rating", .pfloat 9)]

/-- Record whose certificate is upper-case "PG". -/
def cC2 : Dict := [("name", .pstr "Dune"), ("certificate", .pstr "PG"), ("rating", .pfloat 8)]

/-- Record whose rating the caller supplied as a Python float. -/
def cC4 : Dict := [("name", .pstr "Dune"), ("rating", .pfloat 8)]

/-- Record whose name strictly contains "Dune". -/
def cXDune : Dict := [("name", .pstr "XDuneX"), ("rating", .pfloat 5)]

/-- Record named exactly "Dune", stored after `cXDune`. -/
def cDune7 : Dict := [("name", .pstr "Dune"), ("rating", .pfloat 7)]

/-! ### The claims -/

/-- C1 counterexample: a backend exception caught after the DynamoDB scan
has accumulated its pages makes `movieproject.py`'s FindMovies return the
accumulated items in table order: here two matching records come back with
ratings 8 then 9, so adjacent pairs are not rating-descending. -/
theorem findMovies_partial_scan_cex :
    MP.find_movies "dynamodb" true 2 "certificate" "PG" ⟨[], [mDune, mCasa]⟩
      = .ok [mDune, mCasa] ∧
    ¬ ([mDune, mCasa] : List Dict).Pairwise ratingDesc := by
  exact ⟨by decide, by decide⟩

/-- C1 amended: whenever FindMovies returns without a caught backend
exception — that is, on every path of `movies2.py` (whose search paths have
no `try` and propagate any raise), on `movieproject.py`'s document backend,
and on `movieproject.py`'s key-value backend when the scan and sort complete
— the result list has at most 20 elements and each adjacent pair is
rating-descending. (A caught mid-scan exception on `movieproject.py`'s
key-value backend instead returns the partially accumulated items, unsorted
and untruncated; see the counterexample.) -/
theorem findMovies_bounded_sorted (choice key value : String) (raises : Bool)
    (scanned : ℕ) (st : DBState) (res : List Dict)
    (h : MP.find_movies choice false scanned key value st = .ok res ∨
         M2.find_movies choice raises key value st = .ok res) :
    res.length ≤ 20 ∧ res.Pairwise ratingDesc := by
  have hsh : res = [] ∨ ∃ l, res = (List.insertionSort ratingDesc l).take 20 := by
    rcases h with h | h
    · exact find_shape_MP _ _ _ _ _ _ h
    · exact find_shape_M2 _ _ _ _ _ _ h
  rcases hsh with rfl | ⟨l, rfl⟩
  · simp
  · exact sortTake_spec l

/-- C1 witness: a concrete search on the document backend returns the two
matching records sorted by rating descending. -/
theorem findMovies_bounded_sorted_w :
    ([mCasa, mDune] : List Dict).length ≤ 20 ∧
      ([mCasa, mDune] : List Dict).Pairwise ratingDesc :=
  findMovies_bounded_sorted "mongodb" "certificate" "pg" false 0 ⟨[mDune, mCasa], []⟩
    [mCasa, mDune] (Or.inl (by decide))

/-- C3: in BulkLoad the key-value (DynamoDB) write branch is nested inside
the document-backend (`mongodb`) conditional and would run only when
`db_choice` equals both strings at once; hence for every `db_choice` the
DynamoDB table is never written, and BulkLoad with `db_choice = "dynamodb"`
writes nothing at all, in both source files. -/
theorem bulkLoad_dynamo_dead (choice : String) (rows : List Row) (st : DBState) :
    (MP.load_movies_from_csv choice rows st).dynamo = st.dynamo ∧
    MP.load_movies_from_csv "dynamodb" rows st = st ∧
    (M2.load_movies_from_csv choice rows st).dynamo = st.dynamo ∧
    M2.load_movies_from_csv "dynamodb" rows st = st := by
  refine ⟨?_, rfl, ?_, rfl⟩ <;>
  · by_cases hc : choice = "mongodb"
    · subst hc; rfl
    · simp [MP.load_movies_from_csv, M2.load_movies_from_csv, hc]

/-- C6 counterexample: a backend exception raised during DeleteMovie on the
document backend is not caught; it propagates to the caller, contradicting
the claim that delete-path exceptions are always caught and logged. -/
theorem deleteMovie_exception_cex :
    MP.delete_movie "mongodb" true "Dune" ⟨[], []⟩ = .error () ∧
    M2.delete_movie "mongodb" true "Dune" ⟨[], []⟩ = .error () ∧
    M2.find_movies "dynamodb" true "genre" "Drama" ⟨[], []⟩ = .error () := by
  exact ⟨rfl, rfl, rfl⟩

/-- C6 amended: backend exceptions are caught and logged only in the
key-value delete path (both files) and in `movieproject.py`'s key-value
search path (where the call still returns normally, delivering whatever page
items had been accumulated); the document-backend delete and search paths,
and `movies2.py`'s key-value search path, let the exception propagate, as do
add/update on both backends in both files. -/
theorem exception_policy (st : DBState) (name key value : String)
    (scanned : ℕ) (md ud : Dict) :
    MP.delete_movie "dynamodb" true name st = .ok st ∧
    M2.delete_movie "dynamodb" true name st = .ok st ∧
    MP.find_movies "dynamodb" true scanned key value st
      = .ok ((st.dynamo.take scanned).filter (dynContainsMatch key value)) ∧
    MP.delete_movie "mongodb" true name st = .error () ∧
    M2.delete_movie "mongodb" true name st = .error () ∧
    MP.find_movies "mongodb" true scanned key value st = .error () ∧
    M2.find_movies "mongodb" true key value st = .error () ∧
    M2.find_movies "dynamodb" true key value st = .error () ∧
    (MP.add_movie "mongodb" true md st).2 = .error () ∧
    (MP.add_movie "dynamodb" true md st).2 = .error () ∧
    (M2.add_movie "mongodb" true md st).2 = .error () ∧
    (M2.add_movie "dynamodb" true md st).2 = .error () ∧
    (MP.update_movie "mongodb" true name ud st).2 = .error () ∧
    (MP.update_movie "dynamodb" true name ud st).2 = .error () ∧
    (M2.update_movie "mongodb" true name ud st).2 = .error () ∧
    (M2.update_movie "dynamodb" true name ud st).2 = .error () := by
  have hm2add : (M2.add_movie "mongodb" true md st).2 = .error () := by
    unfold M2.add_movie
    cases hmd : dictGet md "rating" <;> simp [hmd]
  exact ⟨rfl, rfl, rfl, rfl, rfl, rfl, rfl, rfl, rfl, rfl, hm2add, rfl, rfl, rfl, rfl, rfl⟩

/-- C9: the GUI add-movie handler parses the rating with
`Decimal(rating_str)` inside `try ... except ValueError`; a non-numeric
rating string makes `Decimal` raise `decimal.InvalidOperation`, which
`except ValueError` does not catch (the file even imports `InvalidOperation`
without using it), so no blocking error dialog appears: the exception
escapes uncaught. No record is written to either backend (the state is
unchanged), in both source files and for both backends. -/
theorem guiAdd_nonNumeric_rating :
    MP.gui_add_movie "mongodb" "Dune" "Sci-Fi" "Denis Villeneuve" "PG-13" "abc" ⟨[], []⟩
      = (.uncaughtExc, ⟨[], []⟩) ∧
    MP.gui_add_movie "dynamodb" "Dune" "Sci-Fi" "Denis Villeneuve" "PG-13" "abc" ⟨[], []⟩
      = (.uncaughtExc, ⟨[], []⟩) ∧
    M2.gui_add_movie "mongodb" "Dune" "Sci-Fi" "abc" ⟨[], []⟩ = (.uncaughtExc, ⟨[], []⟩) ∧
    M2.gui_add_movie "dynamodb" "Dune" "Sci-Fi" "abc" ⟨[], []⟩ = (.uncaughtExc, ⟨[], []⟩) := by
  exact ⟨rfl, rfl, rfl, rfl⟩

/-- C2 counterexample: the claimed case-insensitive match fails on the
key-value backend in both files: searching certificate "pg" returns no
result although "pg" occurs in the stored "PG" ignoring case. -/
theorem findMovies_ci_cex :
    ciContains "PG" "pg" = true ∧
    dictGet cC2 "certificate" = some (.pstr "PG") ∧
    MP.find_movies "dynamodb" false 0 "certificate" "pg" ⟨[], [cC2]⟩ = .ok [] ∧
    M2.find_movies "dynamodb" false "certificate" "pg" ⟨[], [cC2]⟩ = .ok [] := by
  exact ⟨by decide, rfl, by decide, by decide⟩

/-- C2 amended: the match over the named field differs per backend and file.
`movieproject.py` document backend: case-insensitive substring (some element,
for list fields). Key-value backend (both files): case-sensitive substring on
string fields and exact element membership on list fields. `movies2.py`
document backend: exact equality on string fields and exact element
membership on list fields. In each case a stored record is in the result set
exactly when it satisfies that backend's match, up to the 20-result
truncation (the reverse inclusion is stated when at most 20 records match). -/
theorem findMovies_match_semantics (key value : String) (scanned : ℕ)
    (st : DBState) (d : Dict) :
    (∀ res, MP.find_movies "mongodb" false scanned key value st = .ok res →
      (d ∈ res → d ∈ st.mongo ∧ mpRegexMatch key value d = true) ∧
      ((st.mongo.filter (mpRegexMatch key value)).length ≤ 20 →
        d ∈ st.mongo → mpRegexMatch key value d = true → d ∈ res)) ∧
    (∀ res, MP.find_movies "dynamodb" false scanned key value st = .ok res →
      (d ∈ res → d ∈ st.dynamo ∧ dynContainsMatch key value d = true) ∧
      ((st.dynamo.filter (dynContainsMatch key value)).length ≤ 20 →
        d ∈ st.dynamo → dynContainsMatch key value d = true → d ∈ res)) ∧
    (∀ res, M2.find_movies "mongodb" false key value st = .ok res →
      (d ∈ res → d ∈ st.mongo ∧ m2EqMatch key value d = true) ∧
      ((st.mongo.filter (m2EqMatch key value)).length ≤ 20 →
        d ∈ st.mongo → m2EqMatch key value d = true → d ∈ res)) ∧
    (∀ res, M2.find_movies "dynamodb" false key value st = .ok res →
      (d ∈ res → d ∈ st.dynamo ∧ dynContainsMatch key value d = true) ∧
      ((st.dynamo.filter (dynContainsMatch key value)).length ≤ 20 →
        d ∈ st.dynamo → dynContainsMatch key value d = true → d ∈ res)) := by
  refine ⟨?_, ?_, ?_, ?_⟩ <;>
  · intro res h
    replace h := (Except.ok.inj h).symm
    subst h
    exact ⟨fun hm => (sortTake_mem _ _ _).1 hm,
           fun h1 h2 h3 => (sortTake_mem _ _ _).2 h1 h2 h3⟩

/-- C2 witness: on the document backend of `movieproject.py` a record whose
certificate contains the search value case-insensitively is returned. -/
theorem findMovies_match_semantics_w : mCasa ∈ ([mCasa, mDune] : List Dict) :=
  (((findMovies_match_semantics "certificate" "pg" 0 ⟨[mDune, mCasa], []⟩ mCasa).1
      [mCasa, mDune] (by decide)).2 (by decide) (by decide) (by decide))

/-- C4 counterexample: on the key-value backend a caller-supplied float
rating is not converted to an exact decimal: `movieproject.py` leaves the
dict unchanged (it only re-wraps values already of type Decimal) and stores
the float as is, and `movies2.py` writes the record through untouched. -/
theorem addMovie_decimal_cex :
    (MP.add_movie "dynamodb" false cC4 ⟨[], []⟩).1 = cC4 ∧
    (MP.add_movie "dynamodb" false cC4 ⟨[], []⟩).2 = .ok ⟨[], [cC4]⟩ ∧
    (M2.add_movie "dynamodb" false cC4 ⟨[], []⟩).1 = cC4 ∧
    (M2.add_movie "dynamodb" false cC4 ⟨[], []⟩).2 = .ok ⟨[], [cC4]⟩ ∧
    dictGet cC4 "rating" = some (.pfloat 8) ∧
    (PyVal.pfloat 8) ≠ (PyVal.pdec 8) := by
  exact ⟨rfl, by decide, rfl, by decide, rfl, by decide⟩

/-- C4 amended: before writing, AddMovie converts the rating to a float on
the document backend (both files); on the key-value backend no conversion of
the caller's numeric type takes place: `movieproject.py` leaves the rating
value unchanged (re-wrapping it only when it is already a Decimal) and
`movies2.py` passes the record through entirely unchanged. -/
theorem addMovie_rating_conv (md : Dict) (v : PyVal) (st : DBState)
    (h : dictGet md "rating" = some v) :
    dictGet (MP.add_movie "mongodb" false md st).1 "rating"
        = some (.pfloat (pyFloatOf v)) ∧
    dictGet (M2.add_movie "mongodb" false md st).1 "rating"
        = some (.pfloat (pyFloatOf v)) ∧
    dictGet (MP.add_movie "dynamodb" false md st).1 "rating" = some v ∧
    (M2.add_movie "dynamodb" false md st).1 = md := by
  have hk : hasKey md "rating" = true := hasKey_of_dictGet _ _ _ h
  refine ⟨?_, ?_, ?_, rfl⟩
  · unfold MP.add_movie
    simp only [if_pos rfl, hk, if_true, h, Option.getD_some]
    exact dictGet_dictSet_self _ _ _
  · unfold M2.add_movie
    simp only [if_pos rfl, h]
    exact dictGet_dictSet_self _ _ _
  · unfold MP.add_movie
    cases v with
    | pdec q => simp only [h]; rw [← h]; simpa [h] using dictGet_dictSet_self md "rating" (.pdec q)
    | pfloat q => simp [h]
    | pint n => simp [h]
    | pstr s => simp [h]
    | plist l => simp [h]

/-- C4 witness: a Decimal rating handed to the document backend ends up as
the corresponding float in the written record. -/
theorem addMovie_rating_conv_w :
    dictGet (MP.add_movie "mongodb" false
        [("name", .pstr "Dune"), ("rating", .pdec 9)] ⟨[], []⟩).1 "rating"
      = some (.pfloat (pyFloatOf (.pdec 9))) :=
  (addMovie_rating_conv [("name", .pstr "Dune"), ("rating", .pdec 9)]
    (.pdec 9) ⟨[], []⟩ (by decide)).1

/-- C10: AddMovie and UpdateMovie mutate the caller's input dictionary in
place (modelled by returning the post-call content of the argument dict,
which is fixed before the backend write and therefore independent of whether
the write raises): with the document backend the rating entry of the
caller's dict is replaced by its float conversion on add, and every
Decimal-valued entry by its float conversion on update; with the key-value
backend every float-valued entry of the caller's update dict is replaced by
its Decimal conversion. Both files. -/
theorem add_update_mutate_caller (md ud : Dict) (v : PyVal) (q : ℚ)
    (k movie_name : String) (st : DBState) (raises : Bool) :
    (dictGet md "rating" = some v →
      dictGet (MP.add_movie "mongodb" raises md st).1 "rating"
          = some (.pfloat (pyFloatOf v)) ∧
      dictGet (M2.add_movie "mongodb" raises md st).1 "rating"
          = some (.pfloat (pyFloatOf v))) ∧
    (dictGet ud k = some (.pdec q) →
      dictGet (MP.update_movie "mongodb" raises movie_name ud st).1 k
          = some (.pfloat q) ∧
      dictGet (M2.update_movie "mongodb" raises movie_name ud st).1 k
          = some (.pfloat q)) ∧
    (dictGet ud k = some (.pfloat q) →
      dictGet (MP.update_movie "dynamodb" raises movie_name ud st).1 k
          = some (.pdec q) ∧
      dictGet (M2.update_movie "dynamodb" raises movie_name ud st).1 k
          = some (.pdec q)) := by
  refine ⟨fun h => ?_, fun h => ?_, fun h => ?_⟩
  · have hk : hasKey md "rating" = true := hasKey_of_dictGet _ _ _ h
    constructor
    · unfold MP.add_movie
      simp only [if_pos rfl, hk, if_true, h, Option.getD_some]
      exact dictGet_dictSet_self _ _ _
    · unfold M2.add_movie
      simp only [if_pos rfl, h]
      exact dictGet_dictSet_self _ _ _
  · constructor
    · have e1 : (MP.update_movie "mongodb" raises movie_name ud st).1
          = ud.map (fun p => (p.1, mongoConv p.2)) := rfl
      rw [e1, dictGet_mapVals, h]; rfl
    · have e2 : (M2.update_movie "mongodb" raises movie_name ud st).1
          = ud.map (fun p => (p.1, mongoConv p.2)) := rfl
      rw [e2, dictGet_mapVals, h]; rfl
  · constructor
    · have e3 : (MP.update_movie "dynamodb" raises movie_name ud st).1
          = ud.map (fun p => (p.1, dynamoConv p.2)) := rfl
      rw [e3, dictGet_mapVals, h]; rfl
    · have e4 : (M2.update_movie "dynamodb" raises movie_name ud st).1
          = ud.map (fun p => (p.1, dynamoConv p.2)) := rfl
      rw [e4, dictGet_mapVals, h]; rfl

/-- C10 witness: updating with a Decimal rating on the document backend
leaves the caller's dict holding the float conversion. -/
theorem add_update_mutate_caller_w :
    dictGet (MP.update_movie "mongodb" false "Dune"
        [("rating", .pdec 9)] ⟨[], []⟩).1 "rating" = some (.pfloat 9) :=
  ((add_update_mutate_caller [] [("rating", .pdec 9)] (.pdec 9) 9
      "rating" "Dune" ⟨[], []⟩ false).2.1 (by decide)).1

/-- C7: DeleteMovie on a name with zero matching records is idempotent (the
state is returned unchanged) and does not raise, on both backends and in both
files; the document backend deletes at most one record in general; on the
key-value backend the delete is unconditional and a backend error is caught,
the call still reporting success with the state unchanged. -/
theorem deleteMovie_zero_match (st : DBState) (name : String) :
    ((∀ d ∈ st.mongo, nameIs name d = false) →
      MP.delete_movie "mongodb" false name st = .ok st ∧
      M2.delete_movie "mongodb" false name st = .ok st) ∧
    ((∀ d ∈ st.dynamo, nameIs name d = false) →
      MP.delete_movie "dynamodb" false name st = .ok st ∧
      M2.delete_movie "dynamodb" false name st = .ok st) ∧
    (MP.delete_movie "dynamodb" true name st = .ok st ∧
     M2.delete_movie "dynamodb" true name st = .ok st) ∧
    (∃ res, MP.delete_movie "mongodb" false name st = .ok res ∧
      res.dynamo = st.dynamo ∧ st.mongo.length ≤ res.mongo.length + 1) := by
  refine ⟨fun h => ?_, fun h => ?_, ⟨rfl, rfl⟩, ?_⟩
  · have e : mongoDeleteOne st.mongo name = st.mongo := mongoDeleteOne_nomatch _ _ h
    constructor
    · show Except.ok { st with mongo := mongoDeleteOne st.mongo name } = .ok st
      rw [e]
    · show Except.ok { st with mongo := mongoDeleteOne st.mongo name } = .ok st
      rw [e]
  · have e : dynamoDelete st.dynamo name = st.dynamo := dynamoDelete_nomatch _ _ h
    constructor
    · show Except.ok { st with dynamo := dynamoDelete st.dynamo name } = .ok st
      rw [e]
    · show Except.ok { st with dynamo := dynamoDelete st.dynamo name } = .ok st
      rw [e]
  · exact ⟨_, rfl, rfl, mongoDeleteOne_length _ _⟩

/-- C7 witness: deleting an absent name on the document backend returns the
store unchanged. -/
theorem deleteMovie_zero_match_w :
    MP.delete_movie "mongodb" false "Zodiac" ⟨[mDune], [mCasa]⟩
      = .ok ⟨[mDune], [mCasa]⟩ :=
  ((deleteMovie_zero_match ⟨[mDune], [mCasa]⟩ "Zodiac").1 (by decide)).1

/-- C8: GetMovieDetails on the document backend performs a case-insensitive
pattern match on the name and returns the first matching record (every
returned record is a stored case-insensitive match, and the head of the
first matching suffix is returned); on the key-value backend it performs an
exact-key lookup and returns `None` when no record with exactly that name
exists. `movies2.py` behaves identically. -/
theorem getMovieDetails_semantics (st : DBState) (movie_name : String) :
    (∀ d, MP.get_movie_details "mongodb" st movie_name = some d →
      d ∈ st.mongo ∧ ciNameMatch movie_name d = true) ∧
    (∀ l1 d l2, st.mongo = l1 ++ d :: l2 →
      (∀ e ∈ l1, ciNameMatch movie_name e = false) →
      ciNameMatch movie_name d = true →
      MP.get_movie_details "mongodb" st movie_name = some d) ∧
    (∀ d, MP.get_movie_details "dynamodb" st movie_name = some d →
      d ∈ st.dynamo ∧ dictGet d "name" = some (.pstr movie_name)) ∧
    ((∀ d ∈ st.dynamo, nameIs movie_name d = false) →
      MP.get_movie_details "dynamodb" st movie_name = none) ∧
    (M2.get_movie_details "mongodb" st movie_name
      = MP.get_movie_details "mongodb" st movie_name) ∧
    (M2.get_movie_details "dynamodb" st movie_name
      = MP.get_movie_details "dynamodb" st movie_name) := by
  refine ⟨?_, ?_, ?_, ?_, rfl, rfl⟩
  · intro d h
    have h2 : st.mongo.find? (ciNameMatch movie_name) = some d := h
    exact ⟨List.mem_of_find?_eq_some h2, List.find?_some h2⟩
  · intro l1 d l2 hdec h1 hd
    show st.mongo.find? (ciNameMatch movie_name) = some d
    rw [hdec]
    exact find?_first _ _ _ _ h1 hd
  · intro d h
    have h2 : st.dynamo.find? (nameIs movie_name) = some d := h
    refine ⟨List.mem_of_find?_eq_some h2, ?_⟩
    have := List.find?_some h2
    simpa [nameIs] using this
  · intro h
    show st.dynamo.find? (nameIs movie_name) = none
    exact List.find?_eq_none.mpr fun d hd => by simp [h d hd]

/-- C8 witness: the document backend returns the first record whose name
contains the query case-insensitively. -/
theorem getMovieDetails_semantics_w :
    MP.get_movie_details "mongodb" ⟨[mDune], []⟩ "dune" = some mDune :=
  (getMovieDetails_semantics ⟨[mDune], []⟩ "dune").2.1 [] mDune []
    rfl (by simp) (by decide)

/-- C5 counterexample: with a record named "XDuneX" stored ahead of the
record named "Dune", UpdateMovie("Dune", rating 9) updates the "Dune" record
(exact match), but the subsequent GetMovieDetails("Dune") regex-matches
"XDuneX" first and returns that record with its untouched rating 5, not 9. -/
theorem updateMovie_get_cex :
    (MP.update_movie "mongodb" false "Dune" [("rating", .pdec 9)]
        ⟨[cXDune, cDune7], []⟩).2
      = .ok ⟨[cXDune, [("name", .pstr "Dune"), ("rating", .pfloat 9)]], []⟩ ∧
    MP.get_movie_details "mongodb"
        ⟨[cXDune, [("name", .pstr "Dune"), ("rating", .pfloat 9)]], []⟩ "Dune"
      = some cXDune ∧
    dictGet cXDune "rating" = some (.pfloat 5) ∧
    (PyVal.pfloat 5) ≠ (PyVal.pfloat 9) := by
  exact ⟨by decide, by decide, rfl, by decide⟩

/-- C5 amended: the conclusion holds under the proviso that the lookup's
case-insensitive first match is the exactly-named record (for instance when
no other stored name contains the target name as a substring). Then after
UpdateMovie(name, rating r) with a Decimal r, GetMovieDetails(name) returns
that record with its rating replaced (stored as float r on the document
backend and as Decimal r on the key-value backend, where the record with
exactly that key must exist) and every other field unchanged. -/
theorem updateMovie_rating_frame (st : DBState) (movie_name : String) (r : ℚ)
    (d e : Dict)
    (hfind : st.mongo.find? (ciNameMatch movie_name) = some d)
    (hex : dictGet d "name" = some (.pstr movie_name))
    (hdyn : st.dynamo.find? (nameIs movie_name) = some e) :
    (∃ st1, (MP.update_movie "mongodb" false movie_name
        [("rating", .pdec r)] st).2 = .ok st1 ∧
      MP.get_movie_details "mongodb" st1 movie_name
        = some (dictSet d "rating" (.pfloat r)) ∧
      dictGet (dictSet d "rating" (.pfloat r)) "rating" = some (.pfloat r) ∧
      ∀ k, k ≠ "rating" →
        dictGet (dictSet d "rating" (.pfloat r)) k = dictGet d k) ∧
    (∃ st2, (MP.update_movie "dynamodb" false movie_name
        [("rating", .pdec r)] st).2 = .ok st2 ∧
      MP.get_movie_details "dynamodb" st2 movie_name
        = some (dictSet e "rating" (.pdec r)) ∧
      dictGet (dictSet e "rating" (.pdec r)) "rating" = some (.pdec r) ∧
      ∀ k, k ≠ "rating" →
        dictGet (dictSet e "rating" (.pdec r)) k = dictGet e k) := by
  constructor
  · refine ⟨⟨mongoUpdateOne st.mongo movie_name [("rating", .pfloat r)], st.dynamo⟩,
      rfl, ?_, dictGet_dictSet_self _ _ _, fun k hk => dictGet_dictSet_ne _ _ _ _ hk⟩
    show (mongoUpdateOne st.mongo movie_name [("rating", .pfloat r)]).find?
        (ciNameMatch movie_name) = some (dictSet d "rating" (.pfloat r))
    exact find?_mongoUpdateOne _ _ _ _ hfind hex
  · refine ⟨⟨st.mongo, dynamoUpdate st.dynamo movie_name [("rating", .pdec r)]⟩,
      rfl, ?_, dictGet_dictSet_self _ _ _, fun k hk => dictGet_dictSet_ne _ _ _ _ hk⟩
    show (dynamoUpdate st.dynamo movie_name [("rating", .pdec r)]).find?
        (nameIs movie_name) = some (dictSet e "rating" (.pdec r))
    exact find?_dynamoUpdate _ _ _ _ hdyn

/-- C5 witness: on a store whose only document is named exactly "Dune", the
update-then-lookup round trip yields rating 9 with all other fields kept. -/
theorem updateMovie_rating_frame_w :
    (∃ st1, (MP.update_movie "mongodb" false "Dune"
        [("rating", .pdec 9)] ⟨[mDune], [mDune]⟩).2 = .ok st1 ∧
      MP.get_movie_details "mongodb" st1 "Dune"
        = some (dictSet mDune "rating" (.pfloat 9)) ∧
      dictGet (dictSet mDune "rating" (.pfloat 9)) "rating" = some (.pfloat 9) ∧
      ∀ k, k ≠ "rating" →
        dictGet (dictSet mDune "rating" (.pfloat 9)) k = dictGet mDune k) ∧
    (∃ st2, (MP.update_movie "dynamodb" false "Dune"
        [("rating", .pdec 9)] ⟨[mDune], [mDune]⟩).2 = .ok st2 ∧
      MP.get_movie_details "dynamodb" st2 "Dune"
        = some (dictSet mDune "rating" (.pdec 9)) ∧
      dictGet (dictSet mDune "rating" (.pdec 9)) "rating" = some (.pdec 9) ∧
      ∀ k, k ≠ "rating" →
        dictGet (dictSet mDune "rating" (.pdec 9)) k = dictGet mDune k) :=
  updateMovie_rating_frame ⟨[mDune], [mDune]⟩ "Dune" 9 mDune mDune
    (by decide) (by decide) (by decide)

end MovieEnc
